import Mathlib

/-!
Shallow embedding of the texture-sampling and mip-map core of
`src/scene/texture.cpp` (namespace `Textures`), with exact rational
arithmetic in place of IEEE floats.  Pixel-buffer and mip-level accesses
are embedded totally: an access whose C++ counterpart would violate the
`at(x, y)` contract (or index the `levels` vector out of range, or trip
one of the generator's `assert`s) is the corresponding `AccessErr`
value, so in-range executions are exactly the `Except.ok` results.
-/

namespace Textures

/-- Outcome of a contract-violating step: an out-of-range pixel-buffer
access, an out-of-range `levels` vector access, or a failed `assert`. -/
inductive AccessErr : Type
  | pixOOB
  | levelOOB
  | assertFail
deriving DecidableEq, Repr

/-- Color triple (`Spectrum` in the source): three channel intensities. -/
abbrev Spectrum : Type := ℚ × ℚ × ℚ

/-- Spectrum(0.f, 0.f, 0.f) -/
def zeroS : Spectrum := (0, 0, 0)

/-- componentwise `Spectrum::operator+` -/
def sAdd (a b : Spectrum) : Spectrum := (a.1 + b.1, a.2.1 + b.2.1, a.2.2 + b.2.2)

/-- `Spectrum * float` (componentwise scale on the right) -/
def sMul (a : Spectrum) (q : ℚ) : Spectrum := (a.1 * q, a.2.1 * q, a.2.2 * q)

/-- `float * Spectrum` (componentwise scale on the left) -/
def sSMul (q : ℚ) (a : Spectrum) : Spectrum := (q * a.1, q * a.2.1, q * a.2.2)

/-- `Spectrum / float` (componentwise division) -/
def sDiv (a : Spectrum) (q : ℚ) : Spectrum := (a.1 / q, a.2.1 / q, a.2.2 / q)

/-- `std::clamp` on integers, as implemented: `v < lo ? lo : hi < v ? hi : v`. -/
def clampZ (v lo hi : ℤ) : ℤ := if v < lo then lo else if hi < v then hi else v

/-- `std::clamp` on floats, as implemented: `v < lo ? lo : hi < v ? hi : v`. -/
def clampQ (v lo hi : ℚ) : ℚ := if v < lo then lo else if hi < v then hi else v

/-- `static_cast<int>` of a float: truncation toward zero. -/
def trunc (q : ℚ) : ℤ := if 0 ≤ q then ⌊q⌋ else ⌈q⌉

/-- `for (int i = 0; i < n; ++i)` iteration space (empty when `n ≤ 0`). -/
def rangeZ (n : ℤ) : List ℤ := (List.range n.toNat).map (fun i => (i : ℤ))

/-- `HDR_Image`: dimensions plus a row-major pixel buffer of `w * h` colors. -/
structure HDR_Image : Type where
  w : ℕ
  h : ℕ
  data : List Spectrum
deriving DecidableEq, Repr

/-- Pixel-buffer read `image.at(x, y)`: the contract requires
`0 ≤ x < w` and `0 ≤ y < h`; the out-of-range branch is `pixOOB`. -/
def HDR_Image.at' (img : HDR_Image) (x y : ℤ) : Except AccessErr Spectrum :=
  if 0 ≤ x ∧ x < (img.w : ℤ) ∧ 0 ≤ y ∧ y < (img.h : ℤ) then
    .ok (img.data.getD (y.toNat * img.w + x.toNat) zeroS)
  else .error .pixOOB

/-- Pixel-buffer write `image.at(x, y) = c`, with the same contract. -/
def HDR_Image.setAt (img : HDR_Image) (x y : ℤ) (c : Spectrum) : Except AccessErr HDR_Image :=
  if 0 ≤ x ∧ x < (img.w : ℤ) ∧ 0 ≤ y ∧ y < (img.h : ℤ) then
    .ok { img with data := img.data.set (y.toNat * img.w + x.toNat) c }
  else .error .pixOOB

/-- `HDR_Image(width, height)`: a zero-initialized buffer of that size. -/
def mkImage (w h : ℕ) : HDR_Image := ⟨w, h, List.replicate (w * h) zeroS⟩

/-- `HDR_Image::copy()`: an independent deep copy (the identity under
value semantics). -/
def HDR_Image.copy (img : HDR_Image) : HDR_Image := ⟨img.w, img.h, img.data⟩

/-- `static_cast<int>(image.w - 1)` where `image.w` is `uint32_t`:
the subtraction wraps for `w = 0`, and converting the wrapped value
back to a 32-bit int yields `-1`. -/
def wrapSub1 (w : ℕ) : ℤ := if w = 0 then -1 else (w : ℤ) - 1

/-- `sample_nearest` (texture.cpp lines 10-24). -/
def sample_nearest (image : HDR_Image) (uv : ℚ × ℚ) : Except AccessErr Spectrum :=
  let x : ℚ := (image.w : ℚ) * clampQ uv.1 0 1
  let y : ℚ := (image.h : ℚ) * clampQ uv.2 0 1
  let ix : ℤ := ⌊x⌋
  let iy : ℤ := ⌊y⌋
  let ix : ℤ := min ix ((image.w : ℤ) - 1)
  let iy : ℤ := min iy ((image.h : ℤ) - 1)
  image.at' ix iy

/-- `sample_bilinear` (texture.cpp lines 26-72): the quadrant variant
that averages a fixed set of 4 texels with equal 0.25 weights, the
quadrant chosen by comparing the fractional offsets to 0.5. -/
def sample_bilinear (image : HDR_Image) (uv : ℚ × ℚ) : Except AccessErr Spectrum :=
  let iw : ℤ := trunc ((image.w : ℚ) * uv.1)
  let ih : ℤ := trunc ((image.h : ℚ) * uv.2)
  let fw : ℚ := (image.w : ℚ) * uv.1 - (iw : ℚ)
  let fh : ℚ := (image.h : ℚ) * uv.2 - (ih : ℚ)
  let LEFT_UP : List (ℤ × ℤ) := [(-1, 1), (0, 1), (0, 0), (-1, 0)]
  let LEFT_DOWN : List (ℤ × ℤ) := [(-1, 0), (0, 0), (0, -1), (-1, -1)]
  let RIGHT_UP : List (ℤ × ℤ) := [(0, 1), (1, 1), (1, 0), (0, 0)]
  let RIGHT_DOWN : List (ℤ × ℤ) := [(0, 0), (1, 0), (1, -1), (0, -1)]
  let CENTER : List (ℤ × ℤ) := [(-1, 0), (0, 0), (0, -1), (-1, -1)]
  let OFFSETS : List (List (ℤ × ℤ)) := [LEFT_UP, LEFT_DOWN, RIGHT_UP, RIGHT_DOWN, CENTER]
  let offset_index : ℕ := (if fw > 1/2 then 2 else 0) + (if fh < 1/2 then 1 else 0)
  let sample_offset : List (ℤ × ℤ) := OFFSETS.getD offset_index CENTER
  sample_offset.foldlM
    (fun res off => do
      let sx : ℤ := clampZ (max (iw + off.1) 0) 0 (wrapSub1 image.w)
      let sy : ℤ := clampZ (max (ih + off.2) 0) 0 (wrapSub1 image.h)
      let c ← image.at' sx sy
      pure (sAdd res (sMul c (1/4))))
    zeroS

/-- `levels[i]` on a `std::vector`: the out-of-range branch is `levelOOB`. -/
def levelAt (levels : List HDR_Image) (i : ℤ) : Except AccessErr HDR_Image :=
  if hi : 0 ≤ i ∧ i.toNat < levels.length then .ok (levels.get ⟨i.toNat, hi.2⟩)
  else .error .levelOOB

/-- `sample_trilinear` (texture.cpp lines 74-98).  The expression
`static_cast<int>(levels.size() - 1)` underflows `size_t` when the
vector is empty and yields `-1` after the 32-bit conversion. -/
def sample_trilinear (base : HDR_Image) (levels : List HDR_Image) (uv : ℚ × ℚ)
    (lod : ℚ) : Except AccessErr Spectrum :=
  if lod ≤ 0 then sample_bilinear base uv
  else
    let floorI : ℤ := max 0 (trunc lod)
    let sizeM1 : ℤ := if levels.length = 0 then -1 else (levels.length : ℤ) - 1
    let ceilI : ℤ := min sizeM1 (trunc (lod + 1))
    let a : ℚ := lod - (floorI : ℚ)
    let b : ℚ := (ceilI : ℚ) - lod
    if a = 0 then do
      let l ← levelAt levels (trunc lod)
      sample_bilinear l uv
    else do
      let lf ← levelAt levels floorI
      let lc ← levelAt levels ceilI
      let sampled_floor ← sample_bilinear lf uv
      let sampled_ceil ← sample_bilinear lc uv
      pure (sAdd (sSMul (1 - a) sampled_floor) (sSMul (1 - b) sampled_ceil))

/-- Allocation loop of `generate_mipmap` (texture.cpp lines 131-139),
one constructor case per `for` iteration, with the in-loop
`assert(!(width == 1 && height == 1))` as `assertFail`. -/
def alloc_loop : ℕ → ℕ → ℕ → List (ℕ × ℕ) → Except AccessErr (ℕ × ℕ × List (ℕ × ℕ))
  | 0, width, height, dims => .ok (width, height, dims)
  | Nat.succ n, width, height, dims =>
    if width = 1 ∧ height = 1 then .error .assertFail
    else
      alloc_loop n (max 1 (width / 2)) (max 1 (height / 2))
        (dims ++ [(max 1 (width / 2), max 1 (height / 2))])

/-- Allocation phase of `generate_mipmap` (texture.cpp lines 121-142):
`num_levels = int(log2(max(w, h)))` halving steps, then the final
`assert(width == 1 && height == 1)` and the level-count `assert`. -/
def allocate_levels (w h : ℕ) : Except AccessErr (List (ℕ × ℕ)) :=
  let num_levels : ℕ := Nat.log2 (max w h)
  match alloc_loop num_levels w h [] with
  | .error e => .error e
  | .ok (width, height, dims) =>
    if width = 1 ∧ height = 1 then
      if dims.length = num_levels then .ok dims else .error .assertFail
    else .error .assertFail

/-- `downsample` helper of `generate_mipmap` (texture.cpp lines 147-229):
even-aligned 2x2 interior averages, then the odd-width last column
(3x2 / 6), odd-height last row (2x3 / 6) and odd-odd corner (3x3 / 9). -/
def downsample (src : HDR_Image) (dst : HDR_Image) : Except AccessErr HDR_Image := do
  if max 1 (src.w / 2) = dst.w ∧ max 1 (src.h / 2) = dst.h then do
    let dstW : ℤ := (dst.w : ℤ) - (if src.w % 2 = 1 then 1 else 0)
    let dstH : ℤ := (dst.h : ℤ) - (if src.h % 2 = 1 then 1 else 0)
    let dst ← (rangeZ dstW).foldlM
      (fun d w =>
        (rangeZ dstH).foldlM
          (fun d h => do
            let src_x : ℤ := 2 * w
            let src_y : ℤ := 2 * h
            let sample ← (rangeZ 2).foldlM
              (fun s i =>
                (rangeZ 2).foldlM
                  (fun s j => do
                    let c ← src.at' (src_x + i) (src_y + j)
                    pure (sAdd s c))
                  s)
              zeroS
            d.setAt w h (sDiv sample 4))
          d)
      dst
    let last_x : ℤ := (dst.w : ℤ) - 1
    let last_y : ℤ := (dst.h : ℤ) - 1
    let dst ← if src.w % 2 = 1 then
        (rangeZ (dst.h : ℤ)).foldlM
          (fun d j => do
            let s ← (rangeZ 3).foldlM
              (fun s x =>
                (rangeZ 2).foldlM
                  (fun s y => do
                    let c ← src.at' (last_x * 2 + x) (j * 2 + y)
                    pure (sAdd s c))
                  s)
              zeroS
            d.setAt last_x j (sDiv s 6))
          dst
      else pure dst
    let dst ← if src.h % 2 = 1 then
        (rangeZ (dst.w : ℤ)).foldlM
          (fun d i => do
            let s ← (rangeZ 2).foldlM
              (fun s x =>
                (rangeZ 3).foldlM
                  (fun s y => do
                    let c ← src.at' (i * 2 + x) (last_y * 2 + y)
                    pure (sAdd s c))
                  s)
              zeroS
            d.setAt i last_y (sDiv s 6))
          dst
      else pure dst
    let dst ← if src.w % 2 = 1 ∧ src.h % 2 = 1 then do
        let s ← (rangeZ 3).foldlM
          (fun s i =>
            (rangeZ 3).foldlM
              (fun s j => do
                let c ← src.at' (last_x * 2 + i) (last_y * 2 + j)
                pure (sAdd s c))
              s)
          zeroS
        dst.setAt last_x last_y (sDiv s 9)
      else pure dst
    pure dst
  else .error .assertFail

/-- `generate_mipmap` (texture.cpp lines 117-243): allocate the level
stack, then fill level `i` by downsampling level `i - 1` (or the base). -/
def generate_mipmap (base : HDR_Image) : Except AccessErr (List HDR_Image) := do
  let dims ← allocate_levels base.w base.h
  let levels : List HDR_Image := dims.map (fun wh => mkImage wh.1 wh.2)
  (List.range levels.length).foldlM
    (fun (acc : List HDR_Image) i => do
      let src : HDR_Image := if i = 0 then base else acc.getD (i - 1) base
      let dst : HDR_Image := acc.getD i base
      let dst' ← downsample src dst
      pure (acc.set i dst'))
    levels

/-- Sampling mode (`Textures::Sampler`). -/
inductive Sampler : Type
  | nearest
  | bilinear
  | trilinear
deriving DecidableEq, Repr

/-- `Textures::Image`: sampling mode, base image, cached mip levels. -/
structure Image : Type where
  sampler : Sampler
  image : HDR_Image
  levels : List HDR_Image
deriving DecidableEq, Repr

/-- `Image::evaluate` (texture.cpp lines 251-261).  Note the degenerate
guard requires both dimensions to be zero. -/
def Image.evaluate (t : Image) (uv : ℚ × ℚ) (lod : ℚ) : Except AccessErr Spectrum :=
  if t.image.w = 0 ∧ t.image.h = 0 then .ok zeroS
  else match t.sampler with
  | .nearest => sample_nearest t.image uv
  | .bilinear => sample_bilinear t.image uv
  | .trilinear => sample_trilinear t.image t.levels uv lod

/-- `Image::update_mipmap` (texture.cpp lines 263-269). -/
def Image.update_mipmap (t : Image) : Except AccessErr Image :=
  match t.sampler with
  | .trilinear =>
    match generate_mipmap t.image with
    | .ok ls => .ok { t with levels := ls }
    | .error e => .error e
  | _ => .ok { t with levels := [] }

/-- `Image::Image(sampler, image)` (texture.cpp lines 245-249): deep-copy
the source image, then eagerly update the mip-map. -/
def Image.construct (sampler : Sampler) (image : HDR_Image) : Except AccessErr Image :=
  Image.update_mipmap { sampler := sampler, image := image.copy, levels := [] }

/-- `Image::make_valid` (texture.cpp line 273). -/
def Image.make_valid (t : Image) : Except AccessErr Image := t.update_mipmap

/-- `Textures::Constant`: a constant-color texture with a scale factor. -/
structure Constant : Type where
  color : Spectrum
  scale : ℚ
deriving DecidableEq, Repr

/-- `Constant::evaluate` (texture.cpp line 275): `color * scale`. -/
def Constant.evaluate (c : Constant) (uv : ℚ × ℚ) (lod : ℚ) : Spectrum :=
  sMul c.color c.scale

/-- `Texture`: a tagged union of the `Constant` and `Image` variants. -/
inductive Texture : Type
  | constant (c : Constant)
  | image (i : Image)

/-- Modelled from the spec: `HDR_Image::operator!=` is not under `src/`;
per the spec, texture comparison is deep content equality of the base
image, so this is structural inequality of dimensions and pixel data. -/
def HDR_Image.neq (a b : HDR_Image) : Bool := decide (¬ a = b)

/-- `operator!=(Constant, Constant)` (texture.cpp lines 278-280). -/
def Constant.neq (a b : Constant) : Bool :=
  decide (¬ a.color = b.color) || decide (¬ a.scale = b.scale)

/-- `operator!=(Image, Image)` (texture.cpp lines 282-284): compares
only the base images. -/
def Image.neq (a b : Image) : Bool := HDR_Image.neq a.image b.image

/-- `operator!=(Texture, Texture)` (texture.cpp lines 286-294): returns
`false` when the variant indices differ, else dispatches. -/
def Texture.neq (a b : Texture) : Bool :=
  match a, b with
  | .constant ca, .constant cb => Constant.neq ca cb
  | .image ia, .image ib => Image.neq ia ib
  | _, _ => false

/-- The textbook weighted-bilinear read of a clamped texel, used by the
specification's target algorithm. -/
def atClamped (image : HDR_Image) (x y : ℤ) : Spectrum :=
  image.data.getD
    ((clampZ y 0 ((image.h : ℤ) - 1)).toNat * image.w + (clampZ x 0 ((image.w : ℤ) - 1)).toNat)
    zeroS

/-- The textbook weighted-bilinear interpolation that the specification
defines as the correct target behavior of the Bilinear Sampler: blend
the four texels surrounding the continuous pixel-space point
`(w * clamp(uv.x, 0, 1) - 0.5, h * clamp(uv.y, 0, 1) - 0.5)` with
weights from the fractional offsets. -/
def sample_bilinear_spec (image : HDR_Image) (uv : ℚ × ℚ) : Spectrum :=
  let cx : ℚ := (image.w : ℚ) * clampQ uv.1 0 1 - 1/2
  let cy : ℚ := (image.h : ℚ) * clampQ uv.2 0 1 - 1/2
  let x0 : ℤ := ⌊cx⌋
  let y0 : ℤ := ⌊cy⌋
  let tx : ℚ := cx - (x0 : ℚ)
  let ty : ℚ := cy - (y0 : ℚ)
  sAdd
    (sAdd (sSMul ((1 - tx) * (1 - ty)) (atClamped image x0 y0))
      (sSMul (tx * (1 - ty)) (atClamped image (x0 + 1) y0)))
    (sAdd (sSMul ((1 - tx) * ty) (atClamped image x0 (y0 + 1)))
      (sSMul (tx * ty) (atClamped image (x0 + 1) (y0 + 1))))

end Textures

namespace Textures

/-- 2x1 test image: left texel black, right texel white. -/
def img21 : HDR_Image := ⟨2, 1, [(0, 0, 0), (1, 1, 1)]⟩

/-- 1x1 black level. -/
def lvlBlack : HDR_Image := ⟨1, 1, [(0, 0, 0)]⟩

/-- 1x1 white level. -/
def lvlWhite : HDR_Image := ⟨1, 1, [(1, 1, 1)]⟩

/-- 2x1 constant-color image (all texels `(1,1,1)`). -/
def img21c : HDR_Image := ⟨2, 1, [(1, 1, 1), (1, 1, 1)]⟩

/-- 1x1 base image with color `(0.2, 0.4, 0.6)`. -/
def base11 : HDR_Image := ⟨1, 1, [(1/5, 2/5, 3/5)]⟩

/-- C1: the claim states that `sample_bilinear` returns the textbook
weighted-bilinear blend of the four surrounding texels.  On the 2x1
black/white image at `uv = (2/5, 1/2)` the code's quadrant variant
returns the equal-weight average `(1/2, 1/2, 1/2)`, while the claimed
weighted blend is `(3/10, 3/10, 3/10)`; the two disagree. -/
theorem bilinear_quadrant_deviates :
    sample_bilinear img21 (2/5, 1/2) = .ok (1/2, 1/2, 1/2)
    ∧ sample_bilinear_spec img21 (2/5, 1/2) = (3/10, 3/10, 3/10)
    ∧ (((1/2, 1/2, 1/2) : Spectrum) = ((3/10, 3/10, 3/10) : Spectrum)) = False := by
  refine ⟨?_, ?_, ?_⟩
  · norm_num [sample_bilinear, img21, trunc, clampZ, clampQ, wrapSub1, HDR_Image.at',
      sAdd, sMul, zeroS, List.foldlM, Except.instMonad, Except.bind, Except.pure, Except.map,
      List.getD]
  · norm_num [sample_bilinear_spec, img21, atClamped, clampZ, clampQ, sAdd, sSMul, zeroS,
      List.getD]
  · norm_num

/-- C2: the claim states that for `lod` above the last level index the
Trilinear Sampler clamps both bracketing indices to the coarsest level
and so returns exactly its bilinear sample.  With two 1x1 levels
(black then white) and `lod = 3/2`, the code leaves `floor` unclamped
at `1 = lastIndex` but computes the second weight as `1 - b = 3/2`, so
it returns `(2, 2, 2)` — twice the coarsest sample `(1, 1, 1)`. -/
theorem trilinear_saturation_overweights :
    sample_trilinear lvlBlack [lvlBlack, lvlWhite] (0, 0) (3/2) = .ok (2, 2, 2)
    ∧ sample_bilinear lvlWhite (0, 0) = .ok (1, 1, 1)
    ∧ (((2, 2, 2) : Spectrum) = ((1, 1, 1) : Spectrum)) = False := by
  refine ⟨?_, ?_, ?_⟩
  · norm_num [sample_trilinear, sample_bilinear, levelAt, lvlBlack, lvlWhite, trunc,
      clampZ, clampQ, wrapSub1, HDR_Image.at', sAdd, sMul, sSMul, zeroS, List.foldlM,
      Except.instMonad, Except.bind, Except.pure, Except.map, List.getD, List.get]
  · norm_num [sample_bilinear, lvlWhite, trunc, clampZ, clampQ, wrapSub1, HDR_Image.at',
      sAdd, sMul, zeroS, List.foldlM, Except.instMonad, Except.bind, Except.pure, Except.map,
      List.getD]
  · norm_num

/-- C3: the claim states that every pixel-buffer access performed by the
samplers stays inside `[0, w) x [0, h)`.  For a zero-width, height-1
image under bilinear mode, `evaluate`'s degenerate guard (`w == 0 &&
h == 0`) does not fire, and the sampler clamps the x coordinate into
the empty range `[0, -1]`, producing the out-of-range read `at(-1, 0)`:
the out-of-range branch of the total embedding of `at` is reached. -/
theorem evaluate_zero_width_reads_out_of_range :
    Image.evaluate ⟨.bilinear, ⟨0, 1, []⟩, []⟩ (0, 0) 0 = .error .pixOOB := by
  norm_num [Image.evaluate, sample_bilinear, trunc, clampZ, clampQ, wrapSub1,
    HDR_Image.at', sAdd, sMul, zeroS, List.foldlM, Except.instMonad, Except.bind,
    Except.pure, Except.map, List.getD]

/-- C4: the claim states that `evaluate` returns the zero color whenever
either dimension is zero, without any pixel-buffer read.  The code's
guard requires both dimensions to be zero, so a 1x0 image in nearest
mode falls through to `sample_nearest`, which reads `at(0, -1)`. -/
theorem evaluate_degenerate_guard_misses_single_zero :
    Image.evaluate ⟨.nearest, ⟨1, 0, []⟩, []⟩ (0, 0) 0 = .error .pixOOB := by
  norm_num [Image.evaluate, sample_nearest, clampQ, HDR_Image.at', zeroS]

/-- C5: the claim states the odd-dimension footprints of `downsample`
and concludes that a constant-color base image yields constant mip
levels.  For the constant 2x1 base, the only level is 1x1 and its
source has odd height 1, so the last-row loop reads `src.at(x, 1)` and
`src.at(x, 2)` on a height-1 source: the generator performs
out-of-range reads instead of producing the constant color. -/
theorem downsample_strip_reads_out_of_range :
    generate_mipmap img21c = .error .pixOOB := by
  have h1 : allocate_levels 2 1 = .ok [(1, 1)] := by
    norm_num [allocate_levels, alloc_loop, Nat.log2]
  have h2 : downsample img21c (mkImage 1 1) = .error .pixOOB := by
    norm_num [downsample, img21c, mkImage, rangeZ, HDR_Image.at', HDR_Image.setAt,
      sAdd, sDiv, zeroS, List.foldlM, List.range_succ, Except.instMonad, Except.bind,
      Except.pure, Except.map]
  have hw : img21c.w = 2 := rfl
  have hh : img21c.h = 1 := rfl
  norm_num [generate_mipmap, hw, hh, h1, h2, List.foldlM, List.range_succ,
    Except.instMonad, Except.bind, Except.pure, Except.map, List.getD]

/-- C7: the claim states that a 1x1 base image yields an empty mip
sequence (which holds) and that `evaluate` returns the base color for
every `uv` and `lod` under all three modes.  Under trilinear mode with
`lod = 1` the code indexes the empty `levels` vector out of range
instead of returning the color. -/
theorem one_by_one_trilinear_lod_crashes :
    Image.construct .trilinear base11 = .ok ⟨.trilinear, base11, []⟩
    ∧ Image.evaluate ⟨.trilinear, base11, []⟩ (0, 0) 1 = .error .levelOOB
    ∧ Image.evaluate ⟨.trilinear, base11, []⟩ (0, 0) 0 = .ok (1/5, 2/5, 3/5) := by
  refine ⟨?_, ?_, ?_⟩
  · norm_num [Image.construct, Image.update_mipmap, HDR_Image.copy, generate_mipmap,
      allocate_levels, alloc_loop, Nat.log2, base11, mkImage, List.foldlM,
      Except.instMonad, Except.bind, Except.pure, Except.map]
  · norm_num [Image.evaluate, sample_trilinear, levelAt, base11, trunc,
      Except.instMonad, Except.bind, Except.pure, Except.map]
  · norm_num [Image.evaluate, sample_trilinear, sample_bilinear, base11, trunc,
      clampZ, clampQ, wrapSub1, HDR_Image.at', sAdd, sMul, zeroS, List.foldlM,
      Except.instMonad, Except.bind, Except.pure, Except.map, List.getD]

/-- C9: textures holding different variant alternatives compare as
not-unequal (`operator!=` returns `false`), and for two Image-variant
textures `operator!=` compares only the base images, so identical
pixels with different sampling modes compare as equal. -/
theorem texture_neq_variant_behavior :
    (∀ (c : Constant) (i : Image),
      Texture.neq (.constant c) (.image i) = false
      ∧ Texture.neq (.image i) (.constant c) = false)
    ∧ (∀ (a b : Image), Texture.neq (.image a) (.image b) = HDR_Image.neq a.image b.image)
    ∧ (∀ (img : HDR_Image) (s1 s2 : Sampler) (l1 l2 : List HDR_Image),
      Texture.neq (.image ⟨s1, img, l1⟩) (.image ⟨s2, img, l2⟩) = false) := by
  refine ⟨fun c i => ⟨rfl, rfl⟩, fun a b => rfl, fun img s1 s2 l1 l2 => ?_⟩
  simp [Texture.neq, Image.neq, HDR_Image.neq]

/-- C10: under nearest or bilinear sampling mode, the `lod` argument
never influences the result of `evaluate`. -/
theorem evaluate_lod_independent (t : Image)
    (h : t.sampler = .nearest ∨ t.sampler = .bilinear)
    (uv : ℚ × ℚ) (lod1 lod2 : ℚ) : t.evaluate uv lod1 = t.evaluate uv lod2 := by
  unfold Image.evaluate
  rcases h with h | h <;> rw [h]

/-- Witness for C10 at a concrete nearest-mode texture and `lod` pair. -/
theorem evaluate_lod_independent_witness :
    Image.evaluate ⟨.nearest, mkImage 1 1, []⟩ (0, 0) 0
      = Image.evaluate ⟨.nearest, mkImage 1 1, []⟩ (0, 0) 7 :=
  evaluate_lod_independent ⟨.nearest, mkImage 1 1, []⟩ (Or.inl rfl) (0, 0) 0 7

/-- C8: after construction and after `make_valid`, the cached level
sequence equals the Mip-Map Generator's output for the current base
image when the mode is trilinear and is empty otherwise, and the base
image and sampling mode are left unchanged (construction stores a deep
copy of its argument). -/
theorem update_mipmap_caches_generator :
    (∀ (t t' : Image), t.make_valid = .ok t' →
      t'.image = t.image ∧ t'.sampler = t.sampler
      ∧ (t'.sampler = .trilinear → generate_mipmap t'.image = .ok t'.levels)
      ∧ (t'.sampler ≠ .trilinear → t'.levels = []))
    ∧ (∀ (s : Sampler) (img : HDR_Image) (t : Image), Image.construct s img = .ok t →
      t.image = img ∧ t.sampler = s
      ∧ (t.sampler = .trilinear → generate_mipmap t.image = .ok t.levels)
      ∧ (t.sampler ≠ .trilinear → t.levels = [])) := by
  have key : ∀ (t t' : Image), Image.update_mipmap t = .ok t' →
      t'.image = t.image ∧ t'.sampler = t.sampler
      ∧ (t'.sampler = .trilinear → generate_mipmap t'.image = .ok t'.levels)
      ∧ (t'.sampler ≠ .trilinear → t'.levels = []) := by
    rintro ⟨s, img, ls⟩ t' h
    cases s
    · simp only [Image.update_mipmap, Except.ok.injEq] at h
      subst h
      simp
    · simp only [Image.update_mipmap, Except.ok.injEq] at h
      subst h
      simp
    · simp only [Image.update_mipmap] at h
      cases hg : generate_mipmap img with
      | error e => rw [hg] at h; cases h
      | ok lvls =>
        rw [hg] at h
        simp only [Except.ok.injEq] at h
        subst h
        simp [hg]
  refine ⟨fun t t' h => key t t' h, fun s img t h => ?_⟩
  have h2 := key _ _ h
  simpa [HDR_Image.copy] using h2

/-- Witness for C8: revalidating a nearest-mode texture clears its
cached levels and preserves its base image and mode. -/
theorem update_mipmap_caches_generator_witness :
    (⟨.nearest, mkImage 1 1, []⟩ : Image).image
        = (⟨.nearest, mkImage 1 1, [mkImage 1 1]⟩ : Image).image
    ∧ (⟨.nearest, mkImage 1 1, []⟩ : Image).sampler
        = (⟨.nearest, mkImage 1 1, [mkImage 1 1]⟩ : Image).sampler
    ∧ ((⟨.nearest, mkImage 1 1, []⟩ : Image).sampler = .trilinear →
        generate_mipmap (⟨.nearest, mkImage 1 1, []⟩ : Image).image
          = .ok (⟨.nearest, mkImage 1 1, []⟩ : Image).levels)
    ∧ ((⟨.nearest, mkImage 1 1, []⟩ : Image).sampler ≠ .trilinear →
        (⟨.nearest, mkImage 1 1, []⟩ : Image).levels = []) :=
  update_mipmap_caches_generator.1 ⟨.nearest, mkImage 1 1, [mkImage 1 1]⟩
    ⟨.nearest, mkImage 1 1, []⟩ rfl

end Textures

namespace Textures

/-- Clamped halving absorbs an inner clamp: `max 1` before a division
can be dropped under an outer `max 1`. -/
theorem max1_div (t b : ℕ) : max 1 (max 1 t / b) = max 1 (t / b) := by
  rcases Nat.eq_zero_or_pos t with ht | ht
  · subst ht
    simp [Nat.max_eq_left (Nat.div_le_self 1 b)]
  · rw [Nat.max_eq_right ht]

/-- Division by a constant commutes with `max` on naturals. -/
theorem max_div_right (x y c : ℕ) : max (x / c) (y / c) = max x y / c := by
  rcases Nat.le_total x y with h | h
  · rw [Nat.max_eq_right h, Nat.max_eq_right (Nat.div_le_div_right h)]
  · rw [Nat.max_eq_left h, Nat.max_eq_left (Nat.div_le_div_right h)]

/-- Closed form of the allocation loop: as long as the remaining
iteration budget never reaches a 1x1 size early, the loop returns the
fully halved size and appends one halved dimension pair per step. -/
theorem alloc_loop_ok (n : ℕ) :
    ∀ (x y : ℕ) (acc : List (ℕ × ℕ)), 1 ≤ x → 1 ≤ y →
      (∀ i, i < n → 2 ≤ max x y / 2 ^ i) →
      alloc_loop n x y acc =
        .ok (max 1 (x / 2 ^ n), max 1 (y / 2 ^ n),
          acc ++ (List.range n).map
            (fun i => (max 1 (x / 2 ^ (i + 1)), max 1 (y / 2 ^ (i + 1))))) := by
  induction n with
  | zero =>
    intro x y acc hx hy _
    simp [alloc_loop, Nat.max_eq_right hx, Nat.max_eq_right hy]
  | succ n ih =>
    intro x y acc hx hy hbig
    have h0 : 2 ≤ max x y := by simpa using hbig 0 (Nat.succ_pos n)
    have hne : ¬ (x = 1 ∧ y = 1) := by
      rintro ⟨rfl, rfl⟩
      simp at h0
    have h1 : 1 ≤ max x y / 2 := (Nat.le_div_iff_mul_le (by norm_num)).mpr (by omega)
    have hmax' : max (max 1 (x / 2)) (max 1 (y / 2)) = max x y / 2 := by
      rw [max_max_max_comm, max_self, max_div_right]
      exact Nat.max_eq_right h1
    have hbig' : ∀ i, i < n → 2 ≤ max (max 1 (x / 2)) (max 1 (y / 2)) / 2 ^ i := by
      intro i hi
      rw [hmax', Nat.div_div_eq_div_mul]
      have hstep := hbig (i + 1) (Nat.succ_lt_succ hi)
      rwa [pow_succ'] at hstep
    have hxe : ∀ k, max 1 (max 1 (x / 2) / 2 ^ k) = max 1 (x / 2 ^ (k + 1)) := by
      intro k
      rw [max1_div, Nat.div_div_eq_div_mul, ← pow_succ']
    have hye : ∀ k, max 1 (max 1 (y / 2) / 2 ^ k) = max 1 (y / 2 ^ (k + 1)) := by
      intro k
      rw [max1_div, Nat.div_div_eq_div_mul, ← pow_succ']
    rw [alloc_loop, if_neg hne,
      ih (max 1 (x / 2)) (max 1 (y / 2)) _ (Nat.le_max_left 1 _) (Nat.le_max_left 1 _) hbig']
    refine congrArg Except.ok ?_
    refine congrArg₂ Prod.mk (hxe n) (congrArg₂ Prod.mk (hye n) ?_)
    rw [List.range_succ_eq_map, List.map_cons, List.map_map, List.append_assoc]
    refine congrArg (acc ++ ·) ?_
    rw [List.singleton_append]
    refine congrArg₂ List.cons (by rw [pow_one]) ?_
    refine List.map_congr_left (fun i _ => ?_)
    simp only [Function.comp_apply, Nat.succ_eq_add_one]
    rw [hxe (i + 1), hye (i + 1)]

end Textures

namespace Textures

/-- Any dimension bounded by `m` is fully collapsed to 1 after
`log2 m` clamped halvings. -/
theorem max1_pow_log2 (v m : ℕ) (hv : v ≤ m) (hm : 1 ≤ m) :
    max 1 (v / 2 ^ Nat.log2 m) = 1 := by
  have hlt : m < 2 ^ (Nat.log2 m + 1) := Nat.lt_log2_self
  have hle : v / 2 ^ Nat.log2 m ≤ 1 := by
    have h2 : v / 2 ^ Nat.log2 m < 2 := by
      refine (Nat.div_lt_iff_lt_mul (Nat.pow_pos (by norm_num))).mpr ?_
      have hm2 : m < 2 ^ Nat.log2 m * 2 := by rw [← pow_succ]; exact hlt
      omega
    omega
  exact Nat.max_eq_left hle

/-- The allocation phase succeeds on any base with `w, h ≥ 1` and
returns the closed-form halving schedule. -/
theorem allocate_levels_ok (w h : ℕ) (hw : 1 ≤ w) (hh : 1 ≤ h) :
    allocate_levels w h =
      .ok ((List.range (Nat.log2 (max w h))).map
        (fun i => (max 1 (w / 2 ^ (i + 1)), max 1 (h / 2 ^ (i + 1))))) := by
  have hm1 : 1 ≤ max w h := le_trans hw (le_max_left w h)
  have hpow : 2 ^ Nat.log2 (max w h) ≤ max w h := Nat.log2_self_le (by omega)
  have hbig : ∀ i, i < Nat.log2 (max w h) → 2 ≤ max w h / 2 ^ i := by
    intro i hi
    refine (Nat.le_div_iff_mul_le (Nat.pow_pos (by norm_num))).mpr ?_
    calc 2 * 2 ^ i = 2 ^ (i + 1) := by rw [pow_succ']
      _ ≤ 2 ^ Nat.log2 (max w h) := Nat.pow_le_pow_right (by norm_num) (by omega)
      _ ≤ max w h := hpow
  have hw1 : max 1 (w / 2 ^ Nat.log2 (max w h)) = 1 :=
    max1_pow_log2 w (max w h) (le_max_left w h) hm1
  have hh1 : max 1 (h / 2 ^ Nat.log2 (max w h)) = 1 :=
    max1_pow_log2 h (max w h) (le_max_right w h) hm1
  simp only [allocate_levels]
  rw [alloc_loop_ok (Nat.log2 (max w h)) w h [] hw hh hbig]
  simp [hw1, hh1]

/-- C6: for every base image with `w ≥ 1` and `h ≥ 1`, the Mip-Map
Generator's allocation phase runs without tripping its internal
consistency assertions and produces exactly `floor(log2(max(w, h)))`
levels; level `i`'s dimensions are `max(1, dim(i-1) / 2)` in each axis
(level 0 halving the base), and the last level of a non-empty sequence
is exactly 1x1. -/
theorem mipmap_allocation_spec (w h : ℕ) (hw : 1 ≤ w) (hh : 1 ≤ h) :
    ∃ dims, allocate_levels w h = .ok dims
      ∧ dims.length = Nat.log2 (max w h)
      ∧ (∀ i, i < dims.length → dims.getD i (0, 0) =
          (max 1 ((if i = 0 then w else (dims.getD (i - 1) (0, 0)).1) / 2),
           max 1 ((if i = 0 then h else (dims.getD (i - 1) (0, 0)).2) / 2)))
      ∧ (dims ≠ [] → dims.getD (dims.length - 1) (0, 0) = (1, 1)) := by
  have hm1 : 1 ≤ max w h := le_trans hw (le_max_left w h)
  refine ⟨_, allocate_levels_ok w h hw hh, by simp, ?_, ?_⟩
  · intro i hi
    have hi' : i < Nat.log2 (max w h) := by simpa using hi
    rw [List.getD_eq_getElem _ _ (by simpa using hi), List.getElem_map, List.getElem_range]
    rcases i with _ | j
    · simp [pow_one]
    · have hj : j < Nat.log2 (max w h) := Nat.lt_of_succ_lt hi'
      rw [Nat.succ_sub_one,
        List.getD_eq_getElem _ _ (by simpa using hj), List.getElem_map, List.getElem_range]
      simp only [if_neg (Nat.succ_ne_zero j)]
      refine congrArg₂ Prod.mk ?_ ?_
      · rw [max1_div, Nat.div_div_eq_div_mul, ← pow_succ]
      · rw [max1_div, Nat.div_div_eq_div_mul, ← pow_succ]
  · intro hne
    have hn : Nat.log2 (max w h) ≠ 0 := by
      intro h0
      simp [h0] at hne
    have hlast : (List.range (Nat.log2 (max w h))).length - 1 < Nat.log2 (max w h) := by
      simp
      omega
    rw [show ((List.range (Nat.log2 (max w h))).map
        (fun i => (max 1 (w / 2 ^ (i + 1)), max 1 (h / 2 ^ (i + 1))))).length - 1
        = Nat.log2 (max w h) - 1 by simp]
    rw [List.getD_eq_getElem _ _ (by simp; omega), List.getElem_map, List.getElem_range]
    rw [Nat.sub_add_cancel (Nat.one_le_iff_ne_zero.mpr hn)]
    rw [max1_pow_log2 w (max w h) (le_max_left w h) hm1,
      max1_pow_log2 h (max w h) (le_max_right w h) hm1]

/-- Witness for C6 on a 2x2 base image. -/
theorem mipmap_allocation_spec_witness :
    ∃ dims, allocate_levels 2 2 = .ok dims
      ∧ dims.length = Nat.log2 (max 2 2)
      ∧ (∀ i, i < dims.length → dims.getD i (0, 0) =
          (max 1 ((if i = 0 then 2 else (dims.getD (i - 1) (0, 0)).1) / 2),
           max 1 ((if i = 0 then 2 else (dims.getD (i - 1) (0, 0)).2) / 2)))
      ∧ (dims ≠ [] → dims.getD (dims.length - 1) (0, 0) = (1, 1)) :=
  mipmap_allocation_spec 2 2 (by norm_num) (by norm_num)

end Textures
